import Mathlib

/-
Verification of the TPL controller (tpl-controller.mjs): a shallow embedding
of the session/handshake protocol and the state reconciliation engine, with
theorems about the diff minimality, toggle resolution, handshake ordering,
error handling and parsing of the current-state dump.

JavaScript values that flow through the reconciliation engine are modelled by
the type JSVal (strings and integer numbers); JS objects are modelled as
association lists with unique keys in insertion order; undefined is modelled
by Option.  String primitives used by the source (split, toLowerCase,
startsWith, number-to-string coercion) are re-implemented with structural
recursion so that all definitions evaluate inside the kernel.
-/

namespace Tpl

/-- JS String.split with a string separator, on character lists; fuel-driven
so the recursion is structural.  The fuel is always at least the length of
the input plus one, which is enough since every step consumes a character. -/
def splitCharsGo (sep : List Char) : Nat → List Char → List Char → List (List Char)
  | 0, acc, rest => [acc.reverse ++ rest]
  | Nat.succ fuel, acc, rest =>
    if sep ≠ [] ∧ sep.isPrefixOf rest then
      acc.reverse :: splitCharsGo sep fuel [] (rest.drop sep.length)
    else
      match rest with
      | [] => [acc.reverse]
      | c :: rest2 => splitCharsGo sep fuel (c :: acc) rest2

/-- JS String.split with a string separator (leftmost, non-overlapping). -/
def splitOnStr (sep s : String) : List String :=
  (splitCharsGo sep.data (s.data.length + 1) [] s.data).map String.mk

/-- ASCII lower-casing of one character, as toLowerCase acts on the ASCII
key and alias names occurring in this protocol. -/
def lowerChar (c : Char) : Char :=
  if 'A' ≤ c ∧ c ≤ 'Z' then Char.ofNat (c.toNat + 32) else c

/-- JS String.toLowerCase restricted to ASCII. -/
def lowerStr (s : String) : String :=
  String.mk (s.data.map lowerChar)

/-- JS String.startsWith. -/
def startsWithStr (p s : String) : Bool :=
  p.data.isPrefixOf s.data

/-- Decimal digits of a natural number, fuel-driven structural recursion. -/
def natToStrAux : Nat → Nat → List Char
  | 0, _ => []
  | Nat.succ fuel, n =>
    if n < 10 then [Char.ofNat (48 + n)]
    else natToStrAux fuel (n / 10) ++ [Char.ofNat (48 + n % 10)]

/-- JS number-to-string coercion for the integers used by the catalog. -/
def intToStr : Int → String
  | Int.ofNat m => String.mk (natToStrAux (m + 1) m)
  | Int.negSucc m => "-" ++ String.mk (natToStrAux (m + 2) (m + 1))

/-- A JS value flowing through the engine: a string or an integer number. -/
inductive JSVal where
  | str (s : String)
  | num (n : Int)
deriving DecidableEq, Repr

/-- JS coercion value + '' . -/
def JSVal.toStr : JSVal → String
  | .str s => s
  | .num n => intToStr n

/-- JS object property lookup on an association list (keys unique). -/
def lookupJS {α : Type} (l : List (String × α)) (k : String) : Option α :=
  (l.find? (fun p => p.1 == k)).map Prod.snd

/-- One key of the command catalog: optional alias map and toggle flag. -/
structure KeySpec where
  aliases : Option (List (String × JSVal))
  toggle : Bool
deriving DecidableEq, Repr

/-- A command of the catalog: device command-group id and optional key map. -/
structure Command where
  id : String
  keys : Option (List (String × KeySpec))
deriving DecidableEq, Repr

/-- The led command of the default catalog. -/
def ledCommand : Command :=
  { id := "112|1,0,0"
  , keys := some [("enable", { aliases := some [("on", JSVal.num 1), ("off", JSVal.num 0)], toggle := true })] }

/-- The data separator CRLF. -/
def separator : String := "\r\n"

/-- getValues: Object.values(aliases).map(value => value + '') . -/
def getValues (aliases : List (String × JSVal)) : List String :=
  aliases.map (fun p => p.2.toStr)

/-- getCurrentStates: Object.fromEntries(values.slice(2).map(v => v.split(' '))).
The resulting JS object is modelled as its lookup function; a later entry with
the same key overwrites an earlier one, exactly as Object.fromEntries does,
and an entry array with a single element (a line with no space) stores an
undefined value, which a property read cannot tell apart from an absent key. -/
def getCurrentStates (values : List String) : String → Option String :=
  (values.drop 2).foldl
    (fun acc line =>
      let entry := splitOnStr " " line
      fun k => if entry.headD "" == k then entry.get? 1 else acc k)
    (fun _ => none)

/-- getUpcomingValue: resolves the toggle sentinel "-1" against the current
value: two-alias swap when the key has exactly two alias values, else the
binary 0/1 inversion; any other state is returned unchanged.  The callers
only reach this function with command.keys present. -/
def getUpcomingValue (command : Command) (key state : String) (value : Option String) : String :=
  if state = "-1" then
    match (command.keys.bind (fun ks => lookupJS ks key)).bind KeySpec.aliases with
    | some aliases =>
      match getValues aliases with
      | [a, b] => if value = some a then b else a
      | _ => if value = some "0" then "1" else "0"
    | none => if value = some "0" then "1" else "0"
  else state

/-- The loop body of validateStates over the entries of the values object:
an alias match substitutes the alias raw value, a toggle request stores the
sentinel -1, a key known to the catalog with neither match is skipped, and a
key unknown to the catalog passes through unchanged. -/
def validateLoop (keys : List (String × KeySpec)) : List (String × JSVal) → List (String × JSVal)
  | [] => []
  | (key, v) :: rest =>
    match lookupJS keys key with
    | some spec =>
      let value := lowerStr v.toStr
      match spec.aliases.bind (fun al => lookupJS al value) with
      | some av => (key, av) :: validateLoop keys rest
      | none =>
        if spec.toggle = true ∧ value = "toggle" then
          (key, JSVal.num (-1)) :: validateLoop keys rest
        else
          validateLoop keys rest
    | none => (key, v) :: validateLoop keys rest

/-- validateStates: none models the undefined returned when command.keys or
the values object is missing. -/
def validateStates (command : Command) (values : Option (List (String × JSVal))) :
    Option (List (String × JSVal)) :=
  match command.keys, values with
  | some keys, some vals => some (validateLoop keys vals)
  | _, _ => none

/-- The key/value pairs appended to the update body by the loop of
mergeStates: a pair is emitted exactly when the current value differs from
the coerced state, and the emitted value is getUpcomingValue. -/
def mergePairs (command : Command) (current : String → Option String) :
    List (String × JSVal) → List (String × String)
  | [] => []
  | (key, st) :: rest =>
    let value := current key
    let state := st.toStr
    if value = some state then mergePairs command current rest
    else (key, getUpcomingValue command key state value) :: mergePairs command current rest

/-- mergeStates: the update body string, empty when no pair differs, else
prefixed with the command id; data += separator + key + space + value. -/
def mergeStates (command : Command) (states : List (String × JSVal)) (values : List String) : String :=
  let current := getCurrentStates values
  let data := (mergePairs command current states).foldl
    (fun d p => d ++ separator ++ p.1 ++ " " ++ p.2) ""
  if data = "" then "" else "id " ++ command.id ++ data

/-- The POST requests the controller can issue against the device. -/
inductive Req where
  | challenge
  | login (id : String)
  | stateGet (id : String) (data : String)
  | stateSet (id : String) (data : String)
  | logout (id : String)
deriving DecidableEq, Repr

/-- Outcome of one axios call: a response with status and optional body, or
a thrown transport error with its message.  For the challenge request the
validateStatus option makes every status other than 401 arrive as an error. -/
def Axios : Type := Req → Except String (Nat × Option String)

/-- Result of the private post method: the axios response, or the object
with an error message built by its catch block. -/
inductive PostResult where
  | ok (status : Nat) (data : Option String)
  | err (msg : String)
deriving DecidableEq, Repr

/-- post: converts a thrown transport error into the error-message object. -/
def post (ax : Axios) (r : Req) : PostResult :=
  match ax r with
  | .ok sd => .ok sd.1 sd.2
  | .error msg => .err msg

/-- Value returned by fetchValues: the forwarded error object, the line list
split on the separator and filtered of empty lines, or undefined when the
response carried no data. -/
inductive FetchOutcome where
  | err (msg : String)
  | values (vs : List String)
  | undef
deriving DecidableEq, Repr

/-- fetchValues: forwards an error object unchanged, otherwise splits the
response data on the separator and drops empty strings. -/
def fetchValues (ax : Axios) (r : Req) : FetchOutcome :=
  match post ax r with
  | .err m => .err m
  | .ok _ none => .undef
  | .ok _ (some d) => .values ((splitOnStr separator d).filter (fun v => v ≠ ""))

/-- The obfuscation primitive of tpl-utils.mjs, kept abstract: it is external
to the reconciliation core and specified only as a deterministic function of
a value and up to two optional keys. -/
def Encrypt : Type := Option String → Option String → Option String → String

/-- getId: encrypt(authInfo[3], encrypt(password), authInfo[4]). -/
def getId (e : Encrypt) (authInfo : List String) (password : String) : String :=
  e (authInfo.get? 3) (some (e (some password) none none)) (authInfo.get? 4)

/-- A JS computation that either produces a value or throws. -/
inductive JsOutcome (α : Type) where
  | ok (a : α)
  | thrown
deriving DecidableEq, Repr

/-- The result object of process; the state field is optional. -/
structure JsResult where
  state : Option String
deriving DecidableEq, Repr

/-- processState: merges the states and, when a diff exists, issues the
state-set request and inspects the leading five zeros of the response data;
when the post failed or returned no data, reading startsWith of the missing
data field throws.  The second component lists the requests issued. -/
def processState (ax : Axios) (command : Command) (states : List (String × JSVal))
    (values : List String) (id : String) : JsOutcome String × List Req :=
  let data := mergeStates command states values
  if data = "" then (.ok "no action", [])
  else
    match post ax (.stateSet id data) with
    | .ok _ (some d) => (.ok (if startsWithStr "00000" d then "success" else "error"), [.stateSet id data])
    | .ok _ none => (.thrown, [.stateSet id data])
    | .err _ => (.thrown, [.stateSet id data])

/-- process: the full handshake and reconciliation cycle.  The second
component is the ordered list of requests issued. -/
def process (e : Encrypt) (ax : Axios) (password : String) (command : Command)
    (states : List (String × JSVal)) : JsOutcome JsResult × List Req :=
  match fetchValues ax .challenge with
  | .undef => (.ok ⟨none⟩, [.challenge])
  | .err m => (.ok ⟨some m⟩, [.challenge])
  | .values authInfo =>
    let id := getId e authInfo password
    match post ax (.login id) with
    | .err m => (.ok ⟨some m⟩, [.challenge, .login id])
    | .ok status _ =>
      if status = 200 then
        match fetchValues ax (.stateGet id command.id) with
        | .values vs =>
          if vs ≠ [] then
            match processState ax command states vs id with
            | (.ok s, tr) =>
              (.ok ⟨some s⟩, [.challenge, .login id, .stateGet id command.id] ++ tr ++ [.logout id])
            | (.thrown, tr) =>
              (.thrown, [.challenge, .login id, .stateGet id command.id] ++ tr)
          else (.ok ⟨none⟩, [.challenge, .login id, .stateGet id command.id])
        | _ => (.ok ⟨none⟩, [.challenge, .login id, .stateGet id command.id])
      else (.ok ⟨none⟩, [.challenge, .login id])

/-- The global settings object; none models a missing or empty field. -/
structure Settings where
  ipAddress : Option String
  password : Option String
deriving DecidableEq, Repr

/-- Value observed by the caller of turnStates: the undefined returned when
the configuration is missing, a result object, or an escaped exception. -/
inductive TurnResult where
  | undef
  | res (r : JsResult)
  | thrown
deriving DecidableEq, Repr

/-- turnStates: validates the command and states, checks the configuration,
and runs process; the fall-through with missing configuration returns
undefined and issues no request. -/
def turnStates (e : Encrypt) (ax : Axios) (settings : Settings)
    (command : Option Command) (values : Option (List (String × JSVal))) :
    TurnResult × List Req :=
  match command with
  | none => (.res ⟨some "invalid command"⟩, [])
  | some cmd =>
    match validateStates cmd values with
    | some states =>
      match settings.ipAddress, settings.password with
      | some _, some pwd =>
        match process e ax pwd cmd states with
        | (.ok j, tr) => (.res j, tr)
        | (.thrown, tr) => (.thrown, tr)
      | _, _ => (.undef, [])
    | none => (.res ⟨some "invalid state"⟩, [])

/-- Reference description of the current-state parse, written from the spec
for the refinement claim about getCurrentStates: drop the first two lines,
read each line as fields separated by single spaces, use the first field as
the key and the second field as the value, let a later line with the same
key win, and produce no value for a line without a space. -/
def currentSpec (values : List String) (k : String) : Option String :=
  match (values.drop 2).reverse.find? (fun s => (splitOnStr " " s).headD "" == k) with
  | some ln => (splitOnStr " " ln).get? 1
  | none => none

theorem lookupJS_cons {α : Type} (a : String) (b : α) (l : List (String × α)) (k : String) :
    lookupJS ((a, b) :: l) k = if a == k then some b else lookupJS l k := by
  by_cases h : a = k
  · subst h
    simp [lookupJS, List.find?_cons]
  · have hb : (a == k) = false := by simpa using h
    simp [lookupJS, List.find?_cons, hb]

theorem mergePairs_key_mem (c : Command) (cur : String → Option String) :
    ∀ (states : List (String × JSVal)) (k u : String),
      (k, u) ∈ mergePairs c cur states → k ∈ states.map Prod.fst := by
  intro states
  induction states with
  | nil => intro k u h; simp [mergePairs] at h
  | cons p rest ih =>
    intro k u h
    obtain ⟨key, st⟩ := p
    simp only [mergePairs] at h
    by_cases hv : cur key = some st.toStr
    · rw [if_pos hv] at h
      exact List.mem_cons_of_mem _ (ih k u h)
    · rw [if_neg hv] at h
      rcases List.mem_cons.mp h with h1 | h2
      · have : k = key := congrArg Prod.fst h1
        simp [this]
      · exact List.mem_cons_of_mem _ (ih k u h2)

theorem exists_mergePair_iff (c : Command) (cur : String → Option String)
    (states : List (String × JSVal)) (k : String)
    (hnd : (states.map Prod.fst).Nodup) :
    (∃ u, (k, u) ∈ mergePairs c cur states) ↔
      ∃ rv, lookupJS states k = some rv ∧ cur k ≠ some rv.toStr := by
  induction states with
  | nil => simp [mergePairs, lookupJS]
  | cons p rest ih =>
    obtain ⟨key, st⟩ := p
    simp only [List.map_cons, List.nodup_cons] at hnd
    obtain ⟨hk, hnd2⟩ := hnd
    rw [lookupJS_cons]
    by_cases hkey : key = k
    · subst hkey
      rw [if_pos (by simp)]
      by_cases hv : cur key = some st.toStr
      · simp only [mergePairs, if_pos hv]
        constructor
        · rintro ⟨u, hu⟩
          exact absurd (mergePairs_key_mem c cur rest key u hu) hk
        · rintro ⟨rv, hrv, hne⟩
          cases hrv
          exact absurd hv hne
      · simp only [mergePairs, if_neg hv]
        constructor
        · intro _
          exact ⟨st, rfl, hv⟩
        · intro _
          exact ⟨_, List.mem_cons_self _ _⟩
    · rw [if_neg (by simpa using hkey)]
      have hred : (∃ u, (k, u) ∈ mergePairs c cur ((key, st) :: rest)) ↔
          ∃ u, (k, u) ∈ mergePairs c cur rest := by
        simp only [mergePairs]
        by_cases hv : cur key = some st.toStr
        · rw [if_pos hv]
        · rw [if_neg hv]
          constructor
          · rintro ⟨u, hu⟩
            rcases List.mem_cons.mp hu with h1 | h2
            · exact absurd (congrArg Prod.fst h1).symm hkey
            · exact ⟨u, h2⟩
          · rintro ⟨u, hu⟩
            exact ⟨u, List.mem_cons_of_mem _ hu⟩
      rw [hred]
      exact ih hnd2

theorem mergePairs_eq_nil (c : Command) (cur : String → Option String)
    (states : List (String × JSVal))
    (h : ∀ p ∈ states, cur p.1 = some p.2.toStr) :
    mergePairs c cur states = [] := by
  induction states with
  | nil => rfl
  | cons p rest ih =>
    obtain ⟨key, st⟩ := p
    have h1 : cur key = some st.toStr := h (key, st) (List.mem_cons_self _ _)
    simp only [mergePairs, if_pos h1]
    exact ih (fun q hq => h q (List.mem_cons_of_mem _ hq))

theorem foldl_entries (k : String) :
    ∀ (l : List String) (acc : String → Option String),
      (l.foldl
        (fun acc line =>
          let entry := splitOnStr " " line
          fun k2 => if entry.headD "" == k2 then entry.get? 1 else acc k2)
        acc) k =
      match l.reverse.find? (fun s => (splitOnStr " " s).headD "" == k) with
      | some ln => (splitOnStr " " ln).get? 1
      | none => acc k := by
  intro l
  induction l with
  | nil => intro acc; simp
  | cons x xs ih =>
    intro acc
    simp only [List.foldl_cons, List.reverse_cons, List.find?_append]
    rw [ih]
    cases hf : xs.reverse.find? (fun s => (splitOnStr " " s).headD "" == k) with
    | some ln => simp [Option.or]
    | none =>
      rw [List.headD_eq_head?_getD] at *
      cases hx : (splitOnStr " " x).head?.getD "" == k <;>
        simp [Option.or, List.find?_cons, hx]

theorem mergePair_of_lookup (c : Command) (cur : String → Option String) :
    ∀ (states : List (String × JSVal)) (k : String) (v : JSVal),
      lookupJS states k = some v → cur k ≠ some v.toStr →
      (k, getUpcomingValue c k v.toStr (cur k)) ∈ mergePairs c cur states := by
  intro states
  induction states with
  | nil => intro k v hl _; simp [lookupJS] at hl
  | cons p rest ih =>
    intro k v hl hc
    obtain ⟨key, st⟩ := p
    rw [lookupJS_cons] at hl
    by_cases hkey : key = k
    · subst hkey
      rw [if_pos (by simp)] at hl
      cases hl
      simp only [mergePairs, if_neg hc]
      exact List.mem_cons_self _ _
    · rw [if_neg (by simpa using hkey)] at hl
      have hmem := ih k v hl hc
      simp only [mergePairs]
      by_cases hv : cur key = some st.toStr
      · rw [if_pos hv]; exact hmem
      · rw [if_neg hv]; exact List.mem_cons_of_mem _ hmem

/-- A fixed obfuscation primitive used in concrete scenarios: it records the
value and the two optional keys, which keeps concrete identifiers distinct. -/
def eW : Encrypt := fun v k k2 =>
  v.getD "" ++ "#" ++ k.getD "" ++ "#" ++ k2.getD ""

/-- An oracle whose challenge response holds only two values. -/
def axShort : Axios := fun r =>
  match r with
  | .challenge => .ok (401, some ("c0" ++ separator ++ "c1"))
  | .login _ => .error "login refused"
  | _ => .ok (200, some "")

/-- An oracle on which every request succeeds. -/
def axOk : Axios := fun r =>
  match r with
  | .challenge => .ok (401, some ("c0" ++ separator ++ "c1" ++ separator ++ "c2" ++ separator ++ "c3" ++ separator ++ "c4"))
  | .login _ => .ok (200, some "")
  | .stateGet _ _ => .ok (200, some ("h1" ++ separator ++ "h2" ++ separator ++ "enable 0"))
  | .stateSet _ _ => .ok (200, some "00000OK")
  | .logout _ => .ok (200, some "")

/-- An oracle on which only the state-set request fails at transport level. -/
def axSetFail : Axios := fun r =>
  match r with
  | .challenge => .ok (401, some ("c0" ++ separator ++ "c1" ++ separator ++ "c2" ++ separator ++ "c3" ++ separator ++ "c4"))
  | .login _ => .ok (200, some "")
  | .stateGet _ _ => .ok (200, some ("h1" ++ separator ++ "h2" ++ separator ++ "enable 0"))
  | .stateSet _ _ => .error "connect ECONNREFUSED"
  | .logout _ => .ok (200, some "")

/-- The session identifier derived by eW from the five-value challenge. -/
def idW : String := getId eW ["c0", "c1", "c2", "c3", "c4"] "pw"

/-- C1: minimality of the diff — for every command, resolved states map with
unique keys and raw device dump, the update body holds a line for key k
exactly when the resolved value of k, coerced to a string, differs from the
current raw value of k parsed from the dump; keys whose resolved value
equals the current value never appear. -/
theorem diff_minimal (command : Command) (states : List (String × JSVal))
    (dump : List String) (k : String)
    (hnd : (states.map Prod.fst).Nodup) :
    (∃ u, (k, u) ∈ mergePairs command (getCurrentStates dump) states) ↔
      ∃ rv, lookupJS states k = some rv ∧ getCurrentStates dump k ≠ some rv.toStr :=
  exists_mergePair_iff command (getCurrentStates dump) states k hnd

/-- Witness for C1: a concrete resolved map with unique keys, on the led
command with a concrete dump; the key whose value differs appears. -/
theorem diff_minimal_witness :
    (([("enable", JSVal.num 1), ("x", JSVal.str "7")].map Prod.fst).Nodup) ∧
    ((∃ u, ("enable", u) ∈ mergePairs ledCommand
        (getCurrentStates ["h1", "h2", "enable 0", "x 7"])
        [("enable", JSVal.num 1), ("x", JSVal.str "7")]) ↔
      ∃ rv, lookupJS [("enable", JSVal.num 1), ("x", JSVal.str "7")] "enable" = some rv ∧
        getCurrentStates ["h1", "h2", "enable 0", "x 7"] "enable" ≠ some rv.toStr) :=
  ⟨by decide,
   diff_minimal ledCommand [("enable", JSVal.num 1), ("x", JSVal.str "7")]
     ["h1", "h2", "enable 0", "x 7"] "enable" (by decide)⟩

/-- C5: idempotence and determinism of reconciliation — when the current
states already carry, for every resolved key, exactly the coerced resolved
value, the merge produces the empty body, processState answers no action and
issues no request to the device; and the merge is a pure function of the
command, the states and the dump, so the same inputs give the same diff. -/
theorem reconcile_idempotent (ax : Axios) (command : Command)
    (states : List (String × JSVal)) (dump : List String) (id : String)
    (h : ∀ p ∈ states, getCurrentStates dump p.1 = some p.2.toStr) :
    mergeStates command states dump = "" ∧
    processState ax command states dump id = (.ok "no action", []) ∧
    mergeStates command states dump = mergeStates command states dump := by
  have hm : mergeStates command states dump = "" := by
    simp [mergeStates, mergePairs_eq_nil command (getCurrentStates dump) states h]
  refine ⟨hm, ?_, rfl⟩
  simp [processState, hm]

/-- Witness for C5: current states already equal the resolved states of the
led command, so the reconciliation yields no action and no request. -/
theorem reconcile_idempotent_witness :
    (∀ p ∈ [("enable", JSVal.num 1)],
      getCurrentStates ["h1", "h2", "enable 1"] p.1 = some p.2.toStr) ∧
    mergeStates ledCommand [("enable", JSVal.num 1)] ["h1", "h2", "enable 1"] = "" ∧
    processState axOk ledCommand [("enable", JSVal.num 1)] ["h1", "h2", "enable 1"] idW =
      (.ok "no action", []) :=
  ⟨by decide,
   (reconcile_idempotent axOk ledCommand [("enable", JSVal.num 1)]
     ["h1", "h2", "enable 1"] idW (by decide)).1,
   (reconcile_idempotent axOk ledCommand [("enable", JSVal.num 1)]
     ["h1", "h2", "enable 1"] idW (by decide)).2.1⟩

/-- C6 counterexample: for the led command the requested value "blah" on the
catalog key enable matches no alias and is not the toggle keyword; the
resolved states are the empty map — the key is dropped, it does not remain
with its supplied value. -/
theorem passthrough_counterexample :
    validateStates ledCommand (some [("enable", JSVal.str "blah")]) = some [] ∧
    lookupJS ([] : List (String × JSVal)) "enable" = none := by decide

/-- C6 amended: a requested key known to the catalog whose lower-cased
coerced value matches no alias name and is not accepted as the toggle
keyword is dropped from the resolved states (the request stays valid); a
key unknown to the catalog passes through with its supplied value. -/
theorem unresolved_drop (keys : List (String × KeySpec)) (key : String) (v : JSVal)
    (rest : List (String × JSVal)) :
    (∀ spec, lookupJS keys key = some spec →
       spec.aliases.bind (fun al => lookupJS al (lowerStr v.toStr)) = none →
       ¬(spec.toggle = true ∧ lowerStr v.toStr = "toggle") →
       validateLoop keys ((key, v) :: rest) = validateLoop keys rest) ∧
    (lookupJS keys key = none →
       validateLoop keys ((key, v) :: rest) = (key, v) :: validateLoop keys rest) := by
  constructor
  · intro spec hspec hal htog
    simp only [validateLoop, hspec, hal, if_neg htog]
  · intro hnone
    simp only [validateLoop, hnone]

/-- Witness for C6 amended: the led catalog drops enable with value "blah"
and passes the unknown key x through. -/
theorem unresolved_drop_witness :
    validateLoop [("enable", ⟨some [("on", JSVal.num 1), ("off", JSVal.num 0)], true⟩)]
      [("enable", JSVal.str "blah")] =
      validateLoop [("enable", ⟨some [("on", JSVal.num 1), ("off", JSVal.num 0)], true⟩)] [] ∧
    validateLoop [("enable", ⟨some [("on", JSVal.num 1), ("off", JSVal.num 0)], true⟩)]
      [("x", JSVal.str "5")] =
      ("x", JSVal.str "5") ::
        validateLoop [("enable", ⟨some [("on", JSVal.num 1), ("off", JSVal.num 0)], true⟩)] [] :=
  ⟨(unresolved_drop [("enable", ⟨some [("on", JSVal.num 1), ("off", JSVal.num 0)], true⟩)]
      "enable" (JSVal.str "blah") []).1
      ⟨some [("on", JSVal.num 1), ("off", JSVal.num 0)], true⟩ (by decide) (by decide) (by decide),
   (unresolved_drop [("enable", ⟨some [("on", JSVal.num 1), ("off", JSVal.num 0)], true⟩)]
      "x" (JSVal.str "5") []).2 (by decide)⟩

/-- C7 counterexample: the dump line "k a b" parses to the value "a" and not
"a b" — the split is on every space, not the first — and the no-space line
"keyonly" is not a fatal parse failure: it stores no value for the key and
the invocation continues, the merge still producing an update body. -/
theorem parse_counterexample :
    getCurrentStates ["h1", "h2", "k a b"] "k" = some "a" ∧
    some "a" ≠ some "a b" ∧
    getCurrentStates ["h1", "h2", "keyonly"] "keyonly" = none ∧
    mergeStates ledCommand [("enable", JSVal.num 1)] ["h1", "h2", "keyonly"] =
      "id 112|1,0,0" ++ separator ++ "enable 1" := by decide

/-- C7 amended: parsing drops exactly the first two lines of the dump and
reads each remaining line as space-separated fields, key first field, value
second field — text after a second space is dropped, a line without a space
yields no value, a later line with the same key wins, and parsing never
fails.  getCurrentStates agrees with this description everywhere. -/
theorem parse_spec (values : List String) (k : String) :
    getCurrentStates values k = currentSpec values k := by
  unfold getCurrentStates currentSpec
  rw [foldl_entries]

/-- C10: a resolved value that coerces to "-1" reaches the merge as the
toggle sentinel: when the current value is not "-1" the merge emits for the
key the inverse of the current value computed by getUpcomingValue — the
two-alias swap when the key has exactly two alias values, else the 0/1
inversion, which is never the literal "-1" — instead of the value "-1"
itself; in particular a key absent from the catalog whose supplied value is
the number -1 or the string "-1" is inverted. -/
theorem merge_sentinel (command : Command) (states : List (String × JSVal))
    (dump : List String) (k : String) (v : JSVal)
    (hs : lookupJS states k = some v) (hv : v.toStr = "-1")
    (hc : getCurrentStates dump k ≠ some "-1") :
    ((k, getUpcomingValue command k "-1" (getCurrentStates dump k)) ∈
       mergePairs command (getCurrentStates dump) states) ∧
    (∀ al a b, (command.keys.bind (fun ks => lookupJS ks k)).bind KeySpec.aliases = some al →
       getValues al = [a, b] →
       getUpcomingValue command k "-1" (getCurrentStates dump k) =
         if getCurrentStates dump k = some a then b else a) ∧
    ((command.keys.bind (fun ks => lookupJS ks k)).bind KeySpec.aliases = none →
       getUpcomingValue command k "-1" (getCurrentStates dump k) =
         (if getCurrentStates dump k = some "0" then "1" else "0") ∧
       getUpcomingValue command k "-1" (getCurrentStates dump k) ≠ "-1") := by
  refine ⟨?_, ?_, ?_⟩
  · have := mergePair_of_lookup command (getCurrentStates dump) states k v hs (by rw [hv]; exact hc)
    rwa [hv] at this
  · intro al a b hal hab
    simp only [getUpcomingValue, if_pos rfl, hal, hab, if_true]
  · intro hal
    simp only [getUpcomingValue, if_pos rfl, hal, if_true]
    constructor
    · trivial
    · by_cases h0 : getCurrentStates dump k = some "0"
      · rw [if_pos h0]; decide
      · rw [if_neg h0]; decide

/-- Witness for C10: the key x is absent from the led catalog; its supplied
value is the number -1, the current value is "5", and the merge emits the
inverted value "0". -/
theorem merge_sentinel_witness :
    lookupJS [("x", JSVal.num (-1))] "x" = some (JSVal.num (-1)) ∧
    (JSVal.num (-1)).toStr = "-1" ∧
    getCurrentStates ["h1", "h2", "x 5"] "x" ≠ some "-1" ∧
    ("x", getUpcomingValue ledCommand "x" "-1" (getCurrentStates ["h1", "h2", "x 5"] "x")) ∈
      mergePairs ledCommand (getCurrentStates ["h1", "h2", "x 5"]) [("x", JSVal.num (-1))] ∧
    getUpcomingValue ledCommand "x" "-1" (getCurrentStates ["h1", "h2", "x 5"] "x") = "0" :=
  ⟨by decide, by decide, by decide,
   (merge_sentinel ledCommand [("x", JSVal.num (-1))] ["h1", "h2", "x 5"] "x"
     (JSVal.num (-1)) (by decide) (by decide) (by decide)).1,
   by decide⟩

/-- C2: toggle resolution — a key requested with the toggle keyword is
marked with the sentinel -1; resolving the sentinel picks, for a key with
exactly two alias values, the first alias value unless the current value
equals it, in which case the second, and otherwise inverts the bit: "0"
when the current value is not "0", else "1".  With the led aliases on 1 and
off 0 and current "0", requesting on gives 1, toggle gives "1", and toggle
with current "1" gives "0". -/
theorem toggle_resolution (command : Command) (keys : List (String × KeySpec))
    (k : String) (spec : KeySpec) (cur : Option String)
    (hk : command.keys = some keys) (hs : lookupJS keys k = some spec)
    (ht : spec.toggle = true)
    (hna : spec.aliases.bind (fun al => lookupJS al "toggle") = none) :
    validateLoop keys [(k, JSVal.str "toggle")] = [(k, JSVal.num (-1))] ∧
    (∀ al a b, spec.aliases = some al → getValues al = [a, b] →
       getUpcomingValue command k "-1" cur = if cur = some a then b else a) ∧
    ((∀ al, spec.aliases = some al → (getValues al).length ≠ 2) →
       getUpcomingValue command k "-1" cur = if cur = some "0" then "1" else "0") ∧
    validateStates ledCommand (some [("enable", JSVal.str "on")]) =
      some [("enable", JSVal.num 1)] ∧
    getUpcomingValue ledCommand "enable" "-1" (some "0") = "1" ∧
    getUpcomingValue ledCommand "enable" "-1" (some "1") = "0" := by
  have hlow : lowerStr (JSVal.str "toggle").toStr = "toggle" := by decide
  refine ⟨?_, ?_, ?_, by decide, by decide, by decide⟩
  · simp only [validateLoop, hs, hlow, hna, ht]
    simp
  · intro al a b hal hab
    simp only [getUpcomingValue, if_pos rfl, hk, Option.some_bind, hs, hal, hab, if_true]
  · intro hno2
    simp only [getUpcomingValue, if_pos rfl, hk, Option.some_bind, hs, if_true]
    cases hal : spec.aliases with
    | none => simp
    | some al =>
      have hlen := hno2 al hal
      simp only [Option.some_bind]
      cases hgl : getValues al with
      | nil => simp
      | cons a tl =>
        cases tl with
        | nil => simp
        | cons b tl2 =>
          cases tl2 with
          | nil => exact absurd (by rw [hgl]; rfl) hlen
          | cons c tl3 => simp

/-- Witness for C2 on the led catalog with current value "0". -/
theorem toggle_resolution_witness :
    validateLoop [("enable", ⟨some [("on", JSVal.num 1), ("off", JSVal.num 0)], true⟩)]
      [("enable", JSVal.str "toggle")] = [("enable", JSVal.num (-1))] ∧
    getUpcomingValue ledCommand "enable" "-1" (some "0") =
      (if (some "0" : Option String) = some "1" then "0" else "1") :=
  ⟨(toggle_resolution ledCommand
      [("enable", ⟨some [("on", JSVal.num 1), ("off", JSVal.num 0)], true⟩)]
      "enable" ⟨some [("on", JSVal.num 1), ("off", JSVal.num 0)], true⟩ (some "0")
      rfl (by decide) rfl (by decide)).1,
   (toggle_resolution ledCommand
      [("enable", ⟨some [("on", JSVal.num 1), ("off", JSVal.num 0)], true⟩)]
      "enable" ⟨some [("on", JSVal.num 1), ("off", JSVal.num 0)], true⟩ (some "0")
      rfl (by decide) rfl (by decide)).2.1
      [("on", JSVal.num 1), ("off", JSVal.num 0)] "1" "0" rfl (by decide)⟩

/-- C3 counterexample: the challenge response yields only two values, so the
values at indices 3 and 4 are absent, yet the handshake does not fail — the
login request is still issued, with an identifier derived from the absent
values. -/
theorem session_id_counterexample :
    fetchValues axShort .challenge = .values ["c0", "c1"] ∧
    (["c0", "c1"].get? 3 = none ∧ ["c0", "c1"].get? 4 = none) ∧
    Req.login (getId eW ["c0", "c1"] "pw") ∈
      (process eW axShort "pw" ledCommand [("enable", JSVal.num 1)]).2 := by decide

/-- C3 amended: the session identifier equals the obfuscation primitive
applied to challenge value 3, keyed by the obfuscation of the password alone
and further keyed by challenge value 4; when a challenge value is absent it
is passed to the primitive as absent, and whenever the challenge fetch
yields a value list — of any length — the login request is issued with the
derived identifier instead of the handshake failing. -/
theorem session_id (e : Encrypt) (ax : Axios) (pwd : String)
    (cmd : Command) (states : List (String × JSVal))
    (authInfo vs : List String)
    (hch : fetchValues ax .challenge = .values vs) :
    getId e authInfo pwd =
      e (authInfo.get? 3) (some (e (some pwd) none none)) (authInfo.get? 4) ∧
    Req.login (getId e vs pwd) ∈ (process e ax pwd cmd states).2 := by
  refine ⟨rfl, ?_⟩
  simp only [process, hch]
  cases hlg : post ax (.login (getId e vs pwd)) with
  | err m => simp
  | ok status d =>
    by_cases hst : status = 200
    · subst hst
      simp only [if_pos rfl]
      cases hsg : fetchValues ax (.stateGet (getId e vs pwd) cmd.id) with
      | err m => simp
      | undef => simp
      | values vs2 =>
        by_cases hvs : vs2 = []
        · subst hvs; simp
        · cases hps : processState ax cmd states vs2 (getId e vs pwd) with
          | mk fst tr =>
            cases fst <;> simp [hvs, hps]
    · simp [if_neg hst]

/-- Witness for C3 amended on a concrete oracle with a full challenge. -/
theorem session_id_witness :
    fetchValues axOk .challenge = .values ["c0", "c1", "c2", "c3", "c4"] ∧
    (getId eW ["c0", "c1", "c2", "c3", "c4"] "pw" =
      eW (["c0", "c1", "c2", "c3", "c4"].get? 3)
        (some (eW (some "pw") none none)) (["c0", "c1", "c2", "c3", "c4"].get? 4) ∧
     Req.login (getId eW ["c0", "c1", "c2", "c3", "c4"] "pw") ∈
       (process eW axOk "pw" ledCommand [("enable", JSVal.num 1)]).2) :=
  ⟨by decide,
   session_id eW axOk "pw" ledCommand [("enable", JSVal.num 1)]
     ["c0", "c1", "c2", "c3", "c4"] ["c0", "c1", "c2", "c3", "c4"] (by decide)⟩

/-- C8 counterexample: with the password missing and a valid command and
states, turnStates issues no request and returns undefined, which is not a
result object — in particular not the empty result object. -/
theorem missing_config_counterexample :
    turnStates eW axOk ⟨some "192.168.178.1", none⟩ (some ledCommand)
      (some [("enable", JSVal.str "on")]) = (.undef, []) ∧
    TurnResult.undef ≠ TurnResult.res ⟨none⟩ := by decide

/-- C8 amended: whenever the address or the password is missing while the
command and the desired states validate, turnStates issues no request, does
not throw, and returns undefined rather than a result object. -/
theorem missing_config (e : Encrypt) (ax : Axios) (ip pwd : Option String)
    (cmd : Command) (vals : Option (List (String × JSVal)))
    (states : List (String × JSVal))
    (hmiss : ip = none ∨ pwd = none)
    (hv : validateStates cmd vals = some states) :
    turnStates e ax ⟨ip, pwd⟩ (some cmd) vals = (.undef, []) := by
  simp only [turnStates, hv]
  rcases hmiss with h | h <;> subst h
  · rfl
  · cases ip <;> rfl

/-- Witness for C8 amended at a concrete configuration. -/
theorem missing_config_witness :
    validateStates ledCommand (some [("enable", JSVal.str "on")]) =
      some [("enable", JSVal.num 1)] ∧
    turnStates eW axOk ⟨none, some "pw"⟩ (some ledCommand)
      (some [("enable", JSVal.str "on")]) = (.undef, []) :=
  ⟨by decide,
   missing_config eW axOk none (some "pw") ledCommand
     (some [("enable", JSVal.str "on")]) [("enable", JSVal.num 1)]
     (Or.inl rfl) (by decide)⟩

/-- C9 counterexample: a transport failure on the state-set request is not
surfaced as a state message — reading startsWith of the missing data field
throws and the exception escapes turnStates to the caller. -/
theorem transport_counterexample :
    (turnStates eW axSetFail ⟨some "192.168.178.1", some "pw"⟩ (some ledCommand)
      (some [("enable", JSVal.str "on")])).1 = .thrown ∧
    TurnResult.thrown ≠ TurnResult.res ⟨some "connect ECONNREFUSED"⟩ := by decide

/-- C9 amended: the lowest request layer converts every thrown transport
error into the error-message object; a challenge failure and a login failure
are surfaced as the state message of the result; but a state-get failure is
swallowed — the result carries no state field — and a state-set failure
makes the startsWith read of the missing data field throw. -/
theorem transport_errors (e : Encrypt) (ax : Axios) (pwd m : String)
    (cmd : Command) (states : List (String × JSVal)) :
    (∀ r, ax r = .error m → post ax r = .err m) ∧
    (ax .challenge = .error m →
       process e ax pwd cmd states = (.ok ⟨some m⟩, [.challenge])) ∧
    (∀ vs, fetchValues ax .challenge = .values vs →
       ax (.login (getId e vs pwd)) = .error m →
       process e ax pwd cmd states =
         (.ok ⟨some m⟩, [.challenge, .login (getId e vs pwd)])) ∧
    (∀ vs d, fetchValues ax .challenge = .values vs →
       ax (.login (getId e vs pwd)) = .ok (200, d) →
       ax (.stateGet (getId e vs pwd) cmd.id) = .error m →
       process e ax pwd cmd states =
         (.ok ⟨none⟩,
          [.challenge, .login (getId e vs pwd), .stateGet (getId e vs pwd) cmd.id])) ∧
    (∀ id dump, ax (.stateSet id (mergeStates cmd states dump)) = .error m →
       mergeStates cmd states dump ≠ "" →
       (processState ax cmd states dump id).1 = .thrown) := by
  refine ⟨?_, ?_, ?_, ?_, ?_⟩
  · intro r h
    simp [post, h]
  · intro h
    simp [process, fetchValues, post, h]
  · intro vs hch hlg
    simp [process, hch, post, hlg]
  · intro vs d hch hlg hsg
    have hlg2 : post ax (.login (getId e vs pwd)) = .ok 200 d := by
      simp [post, hlg]
    have hsg2 : fetchValues ax (.stateGet (getId e vs pwd) cmd.id) = .err m := by
      simp [fetchValues, post, hsg]
    simp [process, hch, hlg2, hsg2]
  · intro id dump hset hne
    simp [processState, if_neg hne, post, hset]

/-- Witness for C9 amended on the oracle whose state-set fails. -/
theorem transport_errors_witness :
    (processState axSetFail ledCommand [("enable", JSVal.num 1)]
      ["h1", "h2", "enable 0"] idW).1 = .thrown :=
  (transport_errors eW axSetFail "pw" "connect ECONNREFUSED" ledCommand
    [("enable", JSVal.num 1)]).2.2.2.2 idW ["h1", "h2", "enable 0"]
    (by rfl) (by decide)

theorem processState_trace (ax : Axios) (cmd : Command)
    (states : List (String × JSVal)) (vs : List String) (id : String) :
    (processState ax cmd states vs id).2 = [] ∨
    (processState ax cmd states vs id).2 = [.stateSet id (mergeStates cmd states vs)] := by
  simp only [processState]
  by_cases h : mergeStates cmd states vs = ""
  · simp [h]
  · simp only [if_neg h]
    cases hp : post ax (.stateSet id (mergeStates cmd states vs)) with
    | ok s d => cases d <;> simp
    | err m => simp

/-- C4 counterexample: on an oracle where the challenge, the login and a
nonempty state read all succeed — so a session identifier was obtained and a
state read occurred — a transport failure of the state-set request throws
before the logout line is reached, and no logout request is issued; the
if-and-only-if of the claim fails. -/
theorem ordering_counterexample :
    fetchValues axSetFail .challenge = .values ["c0", "c1", "c2", "c3", "c4"] ∧
    fetchValues axSetFail (.stateGet idW "112|1,0,0") = .values ["h1", "h2", "enable 0"] ∧
    (process eW axSetFail "pw" ledCommand [("enable", JSVal.num 1)]).2 =
      [.challenge, .login idW, .stateGet idW "112|1,0,0",
       .stateSet idW ("id 112|1,0,0" ++ separator ++ "enable 1")] ∧
    Req.logout idW ∉ (process eW axSetFail "pw" ledCommand [("enable", JSVal.num 1)]).2 := by
  decide

/-- C4 amended: in every invocation the login request is issued only after
the challenge fetch succeeded and returned a value list, and the state-get
and state-set requests are issued only after a login success with status
200; the logout request is issued exactly when a session identifier was
obtained from the challenge values, login succeeded with status 200, the
state read returned a nonempty value list, and the state processing
completed without throwing — when the state-set transport fails, the
exception skips the logout. -/
theorem handshake_ordering (e : Encrypt) (ax : Axios) (pwd : String)
    (cmd : Command) (states : List (String × JSVal)) :
    ((∃ i, Req.login i ∈ (process e ax pwd cmd states).2) →
       (∃ vs, fetchValues ax .challenge = .values vs) ∧
       (process e ax pwd cmd states).2.head? = some .challenge) ∧
    ((∃ i d, Req.stateGet i d ∈ (process e ax pwd cmd states).2 ∨
             Req.stateSet i d ∈ (process e ax pwd cmd states).2) →
       ∃ i dt rest, (process e ax pwd cmd states).2 =
           .challenge :: .login i :: .stateGet i cmd.id :: rest ∧
         post ax (.login i) = .ok 200 dt) ∧
    ((∃ i, Req.logout i ∈ (process e ax pwd cmd states).2) ↔
       (∃ vs dt vs2 s,
         fetchValues ax .challenge = .values vs ∧
         post ax (.login (getId e vs pwd)) = .ok 200 dt ∧
         fetchValues ax (.stateGet (getId e vs pwd) cmd.id) = .values vs2 ∧
         vs2 ≠ [] ∧
         (processState ax cmd states vs2 (getId e vs pwd)).1 = .ok s)) := by
  cases hch : fetchValues ax .challenge with
  | undef =>
    simp only [process, hch]
    refine ⟨?_, ?_, ?_⟩
    · rintro ⟨i, hi⟩
      simp at hi
    · rintro ⟨i, d, hi | hi⟩ <;> simp at hi
    · constructor
      · rintro ⟨i, hi⟩
        simp at hi
      · rintro ⟨vs, dt, vs2, s, h1, -⟩
        simp at h1
  | err m =>
    simp only [process, hch]
    refine ⟨?_, ?_, ?_⟩
    · rintro ⟨i, hi⟩
      simp at hi
    · rintro ⟨i, d, hi | hi⟩ <;> simp at hi
    · constructor
      · rintro ⟨i, hi⟩
        simp at hi
      · rintro ⟨vs, dt, vs2, s, h1, -⟩
        simp at h1
  | values vs =>
    simp only [process, hch]
    cases hlg : post ax (.login (getId e vs pwd)) with
    | err m =>
      refine ⟨?_, ?_, ?_⟩
      · intro _
        exact ⟨⟨vs, rfl⟩, by simp⟩
      · rintro ⟨i, d, hi | hi⟩ <;> simp at hi
      · constructor
        · rintro ⟨i, hi⟩
          simp at hi
        · rintro ⟨vs2, dt, vs3, s, h1, h2, -⟩
          injection h1 with he
          subst he
          rw [hlg] at h2
          cases h2
    | ok status d =>
      by_cases hst : status = 200
      · subst hst
        simp only [if_pos rfl]
        cases hsg : fetchValues ax (.stateGet (getId e vs pwd) cmd.id) with
        | err m =>
          refine ⟨?_, ?_, ?_⟩
          · intro _
            exact ⟨⟨vs, rfl⟩, by simp⟩
          · intro _
            exact ⟨getId e vs pwd, d, [], rfl, hlg⟩
          · constructor
            · rintro ⟨i, hi⟩
              simp at hi
            · rintro ⟨vs2, dt, vs3, s, h1, h2, h3, -⟩
              injection h1 with he
              subst he
              rw [hsg] at h3
              cases h3
        | undef =>
          refine ⟨?_, ?_, ?_⟩
          · intro _
            exact ⟨⟨vs, rfl⟩, by simp⟩
          · intro _
            exact ⟨getId e vs pwd, d, [], rfl, hlg⟩
          · constructor
            · rintro ⟨i, hi⟩
              simp at hi
            · rintro ⟨vs2, dt, vs3, s, h1, h2, h3, -⟩
              injection h1 with he
              subst he
              rw [hsg] at h3
              cases h3
        | values vs2 =>
          by_cases hvs : vs2 = []
          · subst hvs
            simp only [if_pos rfl]
            refine ⟨?_, ?_, ?_⟩
            · intro _
              exact ⟨⟨vs, rfl⟩, by simp⟩
            · intro _
              exact ⟨getId e vs pwd, d, [], rfl, hlg⟩
            · constructor
              · rintro ⟨i, hi⟩
                simp at hi
              · rintro ⟨vs3, dt, vs4, s, h1, h2, h3, h4, -⟩
                injection h1 with he
                subst he
                rw [hsg] at h3
                injection h3 with he2
                exact absurd he2.symm h4
          · simp only [if_neg hvs]
            cases hps : processState ax cmd states vs2 (getId e vs pwd) with
            | mk fst tr =>
              cases fst with
              | ok s =>
                refine ⟨?_, ?_, ?_⟩
                · intro _
                  exact ⟨⟨vs, rfl⟩, by simp [hvs]⟩
                · intro _
                  exact ⟨getId e vs pwd, d, tr ++ [.logout (getId e vs pwd)], by simp [hvs], hlg⟩
                · constructor
                  · intro _
                    exact ⟨vs, d, vs2, s, rfl, hlg, hsg, hvs, by rw [hps]⟩
                  · intro _
                    exact ⟨getId e vs pwd, by simp [hvs]⟩
              | thrown =>
                refine ⟨?_, ?_, ?_⟩
                · intro _
                  exact ⟨⟨vs, rfl⟩, by simp [hvs]⟩
                · intro _
                  exact ⟨getId e vs pwd, d, tr, by simp [hvs], hlg⟩
                · constructor
                  · rintro ⟨i, hi⟩
                    simp [hvs] at hi
                    rcases processState_trace ax cmd states vs2 (getId e vs pwd) with h2 | h2 <;>
                      rw [hps] at h2 <;> simp only at h2 <;> rw [h2] at hi <;> simp at hi
                  · rintro ⟨vs3, dt, vs4, s, h1, h2, h3, h4, h5⟩
                    injection h1 with he
                    subst he
                    rw [hsg] at h3
                    injection h3 with he2
                    subst he2
                    rw [hps] at h5
                    simp at h5
      · simp only [if_neg hst]
        refine ⟨?_, ?_, ?_⟩
        · intro _
          exact ⟨⟨vs, rfl⟩, by simp⟩
        · rintro ⟨i, d2, hi | hi⟩ <;> simp at hi
        · constructor
          · rintro ⟨i, hi⟩
            simp at hi
          · rintro ⟨vs2, dt, vs3, s, h1, h2, -⟩
            injection h1 with he
            subst he
            rw [hlg] at h2
            injection h2 with hs2 hd2
            exact absurd hs2 hst

/-- Witness for C4 amended: on the all-success oracle the right-hand side of
the logout equivalence holds concretely, so the theorem yields the logout
request in the issued trace. -/
theorem handshake_ordering_witness :
    Req.logout (getId eW ["c0", "c1", "c2", "c3", "c4"] "pw") ∈
      (process eW axOk "pw" ledCommand [("enable", JSVal.num 1)]).2 := by
  obtain ⟨i, hi⟩ :=
    (handshake_ordering eW axOk "pw" ledCommand [("enable", JSVal.num 1)]).2.2.mpr
      ⟨["c0", "c1", "c2", "c3", "c4"], some "", ["h1", "h2", "enable 0"], "success",
       by decide, by rfl, by decide, by decide, by decide⟩
  decide

end Tpl
